import Mathlib

/-!
Verification of the Generic_ADT container library (dynamic element array,
stack, queue) against its specification.

The dynamic-array macros (`ARRAY_GROW`, `ARRAY_RESIZE`, `ARRAY_SHRINK`,
`ARRAY_SHUFFLE`, `CLEAN_NULL_ELEMS`) are embedded from `src/common/defs.h`.
The stack and queue operation bodies are not part of the sources (only the
queue header, the shared macros and the stack test suite are), so those
operations are modelled from the specification, with index conventions fixed
by the assertions of `src/test/test_stack.c`.

Element handles (`elem_t`, a `void *` in the C sources) are modelled as
`Option Nat`: `none` is the `NULL` handle (the tombstone left by
`remove_nth`), `some v` a handle onto a box holding the unsigned value `v`.
Allocation outcomes are modelled by an oracle `Nat → Bool` giving the result
of each successive `realloc` call, and loops whose trip count depends on the
allocator are run on explicit fuel.
-/

/-- `SIZE_MAX` of a 64-bit platform, the "not found" sentinel of the searches. -/
def SIZE_MAX : Nat := 2 ^ 64 - 1

/-- The opaque element handle `elem_t`; `none` models the `NULL` handle. -/
abbrev elem_t := Option Nat

/-- The shared dynamic-array core of both containers: buffer contents,
logical element count and allocated slot count, as in the C structs. -/
structure ArrayState where
  elems : List elem_t
  size : Nat
  capacity : Nat
deriving DecidableEq, Repr

/-- The capacity retried after a failed allocation at attempted capacity
`nc`: `(new_capacity + __ptr->capacity) >> 1` in `ARRAY_GROW`. -/
def growNext (cap nc : Nat) : Nat := (nc + cap) / 2

/-- The sequence of capacities `ARRAY_GROW` attempts while every allocation
fails: attempt 0 is `capacity << 1`, and each failure moves to `growNext`. -/
def attemptSeq (cap : Nat) : Nat → Nat
  | 0 => 2 * cap
  | k + 1 => growNext cap (attemptSeq cap k)

/-- The `do { realloc ... } while (!realloc_res)` loop of `ARRAY_GROW`:
`oracle k` is whether the `k`-th `realloc` call succeeds, `nc` the capacity
currently attempted.  Returns the capacity whose allocation succeeded, or
`none` when `fuel` runs out before any allocation succeeds. -/
def growLoop (cap : Nat) (oracle : Nat → Bool) : Nat → Nat → Nat → Option Nat
  | _, _, 0 => none
  | nc, k, fuel + 1 =>
    if oracle k then some nc else growLoop cap oracle (growNext cap nc) (k + 1) fuel

/-- `ARRAY_GROW` from `src/common/defs.h`: run the retry loop from doubled
capacity; once an allocation succeeds, return `FAILURE = -1` with the state
unmodified if the capacity did not change, else install the new capacity.
`none` means the retry loop itself never finished within `fuel`. -/
def ARRAY_GROW (s : ArrayState) (oracle : Nat → Bool) (fuel : Nat) :
    Option (Int × ArrayState) :=
  match growLoop s.capacity oracle (2 * s.capacity) 0 fuel with
  | none => none
  | some nc =>
    if nc = s.capacity then some (-1, s)
    else some (0, { s with capacity := nc })

/-- `ARRAY_RESIZE` from `src/common/defs.h`: reallocate to `size + n_elems`
slots and install that capacity; on allocation failure (`ok = false`) the
enclosing function returns `NULL` with nothing installed. -/
def ARRAY_RESIZE (s : ArrayState) (n_elems : Nat) (ok : Bool) : Option ArrayState :=
  if ok then some { s with capacity := s.size + n_elems } else none

/-- `ARRAY_SHRINK` from `src/common/defs.h`: reallocate to exactly `n_elems`
slots; on allocation failure (`ok = false`) leave the array as it was.
The `size` field is not touched. -/
def ARRAY_SHRINK (s : ArrayState) (n_elems : Nat) (ok : Bool) : ArrayState :=
  if ok then { s with capacity := n_elems } else s

/-- The compaction loop of `CLEAN_NULL_ELEMS`: scan positions `i, i+1, ...`
for `fuel` steps, copying each non-`NULL` handle down to the write cursor
`k`; returns the final buffer and the final `k` (the new size). -/
def cleanNullGo : List elem_t → Nat → Nat → Nat → List elem_t × Nat
  | arr, _, k, 0 => (arr, k)
  | arr, i, k, fuel + 1 =>
    match arr[i]? with
    | some (some e) => cleanNullGo (arr.set k (some e)) (i + 1) (k + 1) fuel
    | _ => cleanNullGo arr (i + 1) k fuel

/-- `CLEAN_NULL_ELEMS(__ptr, __start, __end)` from `src/common/defs.h`:
compact the non-`NULL` handles of positions `[start, stop)` to the front of
the buffer and set `size` to their count. -/
def CLEAN_NULL_ELEMS (s : ArrayState) (start stop : Nat) : ArrayState :=
  let r := cleanNullGo s.elems start 0 (stop - start)
  { elems := r.1, size := r.2, capacity := s.capacity }

/-- In-place swap of two buffer slots (`PTR_SWAP` on `__ptr[a]`, `__ptr[b]`);
out-of-bounds slots are left untouched by the model. -/
def listSwap (l : List elem_t) (a b : Nat) : List elem_t :=
  match l[a]?, l[b]? with
  | some x, some y => (l.set a y).set b x
  | _, _ => l

/-- The loop of `ARRAY_SHUFFLE`: one iteration per position of
`[start, stop)`, each drawing two `rand()` values (`rand t` is the `t`-th
draw) and swapping slots `start + rand() % (start + stop)`. -/
def shuffleGo (rand : Nat → Nat) (start stop : Nat) : Nat → List elem_t → Nat → List elem_t
  | _, l, 0 => l
  | t, l, fuel + 1 =>
    let a := start + rand t % (start + stop)
    let b := start + rand (t + 1) % (start + stop)
    shuffleGo rand start stop (t + 2) (listSwap l a b) fuel

/-- `ARRAY_SHUFFLE(__ptr, __start, __end)` from `src/common/defs.h`. -/
def ARRAY_SHUFFLE (l : List elem_t) (start stop : Nat) (rand : Nat → Nat) : List elem_t :=
  shuffleGo rand start stop 0 l (stop - start)

/-- The stack's observable state.  `stack.c` is not among the sources; the
element sequence (index 0 = bottom, last = top, as fixed by the assertions
of `src/test/test_stack.c`) together with the fixed ownership mode is the
state the specification describes. -/
structure Stack where
  elems : List elem_t
  copyEnabled : Bool
deriving DecidableEq, Repr

/-- Modelled from the spec: `stack__empty_copy_enabled` creates an empty
copy-enabled stack (the u32-box copy operator of the tests duplicates the
held value, so copying is the identity on the modelled value). -/
def stack__empty_copy_enabled : Stack := ⟨[], true⟩

/-- Modelled from the spec: `stack__empty_copy_disabled` creates an empty
copy-disabled stack. -/
def stack__empty_copy_disabled : Stack := ⟨[], false⟩

/-- Modelled from the spec: `stack__push` appends to the top (growth assumed
to succeed; the growth policy itself is `ARRAY_GROW` above). -/
def stack__push (s : Stack) (e : elem_t) : Stack :=
  ⟨s.elems ++ [e], s.copyEnabled⟩

/-- Modelled from the spec: `stack__length`. -/
def stack__length (s : Stack) : Nat := s.elems.length

/-- Modelled from the spec: `stack__is_empty`. -/
def stack__is_empty (s : Stack) : Bool := s.elems.isEmpty

/-- Modelled from the spec: `stack__pop` removes the top element and hands
out an independent copy; on an empty stack it returns `-1`, stores nothing
through the out pointer (second component `none`) and leaves the stack
unchanged. -/
def stack__pop (s : Stack) : Int × Option elem_t × Stack :=
  match s.elems.getLast? with
  | none => (-1, none, s)
  | some e => (0, some e, ⟨s.elems.dropLast, s.copyEnabled⟩)

/-- Modelled from the spec: `stack__peek_top`; the pair is (return code,
value stored through the out pointer, `none` when nothing is stored). -/
def stack__peek_top (s : Stack) : Int × Option elem_t :=
  match s.elems.getLast? with
  | none => (-1, none)
  | some e => (0, some e)

/-- Modelled from the spec: `stack__peek_nth`; out of range fails with `-1`,
a vacated slot succeeds with the `NULL` sentinel stored.  Index 0 is the
bottom slot, as the assertions of `src/test/test_stack.c` fix. -/
def stack__peek_nth (s : Stack) (n : Nat) : Int × Option elem_t :=
  match s.elems[n]? with
  | none => (-1, none)
  | some e => (0, some e)

/-- Modelled from the spec: `stack__remove_nth` vacates slot `n` into a
`NULL` tombstone without shifting; out of range fails with `-1`. -/
def stack__remove_nth (s : Stack) (n : Nat) : Int × Stack :=
  if n < s.elems.length then (0, ⟨s.elems.set n none, s.copyEnabled⟩)
  else (-1, s)

/-- `stack__clean_NULL`: the `CLEAN_NULL_ELEMS` macro applied to the whole
live region; the new element sequence is the compacted prefix of length `k`. -/
def stack__clean_NULL (s : Stack) : Stack :=
  let r := cleanNullGo s.elems 0 0 s.elems.length
  ⟨r.1.take r.2, s.copyEnabled⟩

/-- Modelled from the spec: the scan of `stack__search`, from the top of the
stack; returns the storage index of the first (topmost-first scan order)
slot satisfying `p`, or `SIZE_MAX` when none does. -/
def searchFromTop (l : List elem_t) (p : elem_t → Bool) : Nat :=
  match l with
  | [] => SIZE_MAX
  | x :: xs =>
    let r := searchFromTop xs p
    if r = SIZE_MAX then (if p x then 0 else SIZE_MAX) else r + 1

/-- The value-based match used by `stack__search`: a candidate handle
matches iff it is non-`NULL` and `match_fn` relates its value to the
target value. -/
def matchPred (f : Nat → Nat → Bool) (v : Nat) : elem_t → Bool
  | some c => f c v
  | none => false

/-- Raw handle equality, the criterion of `stack__ptr_search`. -/
def handleEq (e : elem_t) : elem_t → Bool := fun c => decide (c = e)

/-- Modelled from the spec: `stack__search` returns `SIZE_MAX` on a `NULL`
target, else the index found by the value-based scan. -/
def stack__search (s : Stack) (e : elem_t) (f : Nat → Nat → Bool) : Nat :=
  match e with
  | none => SIZE_MAX
  | some v => searchFromTop s.elems (matchPred f v)

/-- Modelled from the spec: `stack__ptr_search` returns `SIZE_MAX` on a
`NULL` target, else the index found by the handle-equality scan. -/
def stack__ptr_search (s : Stack) (e : elem_t) : Nat :=
  match e with
  | none => SIZE_MAX
  | some v => searchFromTop s.elems (handleEq (some v))

/-- Modelled from the spec: `stack__contains`, boolean wrapper of
`stack__search`. -/
def stack__contains (s : Stack) (e : elem_t) (f : Nat → Nat → Bool) : Bool :=
  decide (stack__search s e f ≠ SIZE_MAX)

/-- Modelled from the spec: `stack__ptr_contains`, boolean wrapper of
`stack__ptr_search`. -/
def stack__ptr_contains (s : Stack) (e : elem_t) : Bool :=
  decide (stack__ptr_search s e ≠ SIZE_MAX)

/-- The queue's observable state (`queue.c` is not among the sources):
element sequence head-first, plus the fixed ownership mode. -/
structure Queue where
  elems : List elem_t
  copyEnabled : Bool
deriving DecidableEq, Repr

/-- Modelled from the spec: `queue__dequeue` removes the head; fails with
`-1` on an empty queue, leaving it unchanged. -/
def queue__dequeue (q : Queue) : Int × Queue :=
  match q.elems with
  | [] => (-1, q)
  | _ :: t => (0, ⟨t, q.copyEnabled⟩)

/-- Modelled from the spec: `queue__pop` removes the head and hands out an
independent copy; fails with `-1` on an empty queue. -/
def queue__pop (q : Queue) : Int × Option elem_t × Queue :=
  match q.elems with
  | [] => (-1, none, q)
  | h :: t => (0, some h, ⟨t, q.copyEnabled⟩)

/-- Modelled from the spec: `queue__front`. -/
def queue__front (q : Queue) : Int × Option elem_t :=
  match q.elems.head? with
  | none => (-1, none)
  | some e => (0, some e)

/-- Modelled from the spec: `queue__back`. -/
def queue__back (q : Queue) : Int × Option elem_t :=
  match q.elems.getLast? with
  | none => (-1, none)
  | some e => (0, some e)

/-- Push the boxed values `0, 1, ..., n-1` in index order. -/
def pushRange (s : Stack) (n : Nat) : Stack :=
  (List.range n).foldl (fun acc i => stack__push acc (some i)) s

/-- Pop `n` times, recording each (return code, stored value) pair in order
together with the final stack. -/
def popTrace : Stack → Nat → List (Int × Option elem_t) × Stack
  | s, 0 => ([], s)
  | s, n + 1 =>
    let r := stack__pop s
    let rest := popTrace r.2.2 n
    ((r.1, r.2.1) :: rest.1, rest.2)

lemma growLoop_allfail (cap : Nat) :
    ∀ (fuel nc k : Nat), growLoop cap (fun _ => false) nc k fuel = none := by
  intro fuel
  induction fuel with
  | zero => intro nc k; rfl
  | succ f ih => intro nc k; simp only [growLoop, Bool.false_eq_true, if_false]; exact ih _ _

lemma growLoop_ge (cap : Nat) (oracle : Nat → Bool) :
    ∀ (fuel nc k r : Nat), cap ≤ nc →
      growLoop cap oracle nc k fuel = some r → cap ≤ r := by
  intro fuel
  induction fuel with
  | zero => intro nc k r _ h; exact absurd h (by simp [growLoop])
  | succ f ih =>
    intro nc k r hle h
    by_cases ho : oracle k = true
    · simp only [growLoop, ho, if_true, Option.some.injEq] at h
      omega
    · simp only [growLoop, ho, if_false] at h
      exact ih _ _ _ (by unfold growNext; omega) h

lemma growLoop_isSome (cap : Nat) (oracle : Nat → Bool) :
    ∀ (fuel m nc : Nat), (∃ i, i < fuel ∧ oracle (m + i) = true) →
      ∃ r, growLoop cap oracle nc m fuel = some r := by
  intro fuel
  induction fuel with
  | zero => intro m nc h; obtain ⟨i, hi, _⟩ := h; omega
  | succ f ih =>
    intro m nc h
    by_cases ho : oracle m = true
    · exact ⟨nc, by simp [growLoop, ho]⟩
    · obtain ⟨i, hi, hoi⟩ := h
      have hi0 : i ≠ 0 := by
        intro h0; rw [h0] at hoi; simp only [Nat.add_zero] at hoi; exact ho hoi
      obtain ⟨i0, rfl⟩ := Nat.exists_eq_succ_of_ne_zero hi0
      obtain ⟨r, hr⟩ := ih (m + 1) (growNext cap nc)
        ⟨i0, by omega, by rw [show m + 1 + i0 = m + (i0 + 1) by omega]; exact hoi⟩
      exact ⟨r, by simp only [growLoop, ho, if_false]; exact hr⟩

lemma growLoop_first_success (cap : Nat) (oracle : Nat → Bool) :
    ∀ (k m fuel nc : Nat), (∀ j, j < k → oracle (m + j) = false) →
      oracle (m + k) = true → k < fuel →
      growLoop cap oracle nc m fuel = some ((growNext cap)^[k] nc) := by
  intro k
  induction k with
  | zero =>
    intro m fuel nc _ hsucc hfuel
    obtain ⟨f, rfl⟩ := Nat.exists_eq_succ_of_ne_zero (by omega : fuel ≠ 0)
    simp only [Nat.add_zero] at hsucc
    simp [growLoop, hsucc]
  | succ k ih =>
    intro m fuel nc hfail hsucc hfuel
    obtain ⟨f, rfl⟩ := Nat.exists_eq_succ_of_ne_zero (by omega : fuel ≠ 0)
    have h0 : oracle m = false := by
      have := hfail 0 (by omega); rwa [Nat.add_zero] at this
    simp only [growLoop, h0, Bool.false_eq_true, if_false]
    rw [Function.iterate_succ_apply]
    exact ih (m + 1) f (growNext cap nc)
      (fun j hj => by
        have := hfail (j + 1) (by omega)
        rwa [show m + (j + 1) = m + 1 + j by omega] at this)
      (by rwa [show m + 1 + k = m + (k + 1) by omega])
      (by omega)

lemma attemptSeq_eq_iterate (cap : Nat) :
    ∀ k, attemptSeq cap k = (growNext cap)^[k] (2 * cap) := by
  intro k
  induction k with
  | zero => rfl
  | succ k ih => rw [Function.iterate_succ_apply', attemptSeq, ih]

/-- C1 (amended): the grow operation first attempts to double the capacity;
on each allocation failure the retry capacity is the floor midpoint of the
old and the attempted capacity, which is strictly smaller than the attempted
capacity whenever that still exceeds the old capacity (once the attempt has
converged to the old capacity, a further failure retries at that same
capacity); the capacity at which the loop stops after `k` failed attempts is
exactly the `k`-th element of this midpoint sequence; and when the operation
returns the out-of-memory failure `-1`, the container's size, capacity and
element contents are left unmodified. -/
theorem ARRAY_GROW_retry_policy (s : ArrayState) (oracle : Nat → Bool) (fuel k : Nat) :
    attemptSeq s.capacity 0 = 2 * s.capacity ∧
    attemptSeq s.capacity (k + 1) = (attemptSeq s.capacity k + s.capacity) / 2 ∧
    (s.capacity < attemptSeq s.capacity k →
      attemptSeq s.capacity (k + 1) < attemptSeq s.capacity k) ∧
    ((∀ j, j < k → oracle j = false) → oracle k = true → k < fuel →
      growLoop s.capacity oracle (2 * s.capacity) 0 fuel = some (attemptSeq s.capacity k)) ∧
    (∀ s2, ARRAY_GROW s oracle fuel = some (-1, s2) → s2 = s) := by
  refine ⟨rfl, rfl, ?_, ?_, ?_⟩
  · intro h
    show growNext s.capacity (attemptSeq s.capacity k) < attemptSeq s.capacity k
    unfold growNext
    omega
  · intro hfail hsucc hfuel
    rw [attemptSeq_eq_iterate]
    exact growLoop_first_success s.capacity oracle k 0 fuel (2 * s.capacity)
      (fun j hj => by simpa using hfail j hj) (by simpa using hsucc) hfuel
  · intro s2 h
    unfold ARRAY_GROW at h
    split at h
    · exact absurd h (by simp)
    · split at h
      · exact (congrArg Prod.snd (Option.some.inj h)).symm
      · have h1 : (0 : Int) = -1 := congrArg Prod.fst (Option.some.inj h)
        exact absurd h1 (by decide)

/-- C1 counterexample: with old capacity 1, after the attempted capacity has
converged to 1 a further allocation failure retries again at capacity 1 —
the retry capacity after the second failure is not smaller than the one
after the first, contradicting the claim that each failure retries at a
smaller capacity. -/
theorem ARRAY_GROW_not_always_smaller :
    attemptSeq 1 1 = 1 ∧ attemptSeq 1 2 = 1 ∧ ¬ attemptSeq 1 2 < attemptSeq 1 1 := by
  decide

theorem ARRAY_GROW_retry_policy_witness :
    attemptSeq 4 1 < attemptSeq 4 0 ∧
    growLoop 1 (fun j => decide (j = 1)) (2 * 1) 0 2 = some (attemptSeq 1 1) ∧
    (∀ s2, ARRAY_GROW ⟨[], 0, 1⟩ (fun j => decide (j = 1)) 2 = some (-1, s2) →
      s2 = ⟨[], 0, 1⟩) :=
  ⟨(ARRAY_GROW_retry_policy ⟨[], 0, 4⟩ (fun _ => true) 1 0).2.2.1 (by decide),
   (ARRAY_GROW_retry_policy ⟨[], 0, 1⟩ (fun j => decide (j = 1)) 2 1).2.2.2.1
     (by decide) (by decide) (by decide),
   (ARRAY_GROW_retry_policy ⟨[], 0, 1⟩ (fun j => decide (j = 1)) 2 0).2.2.2.2⟩

/-- C2 (amended): the grow retry loop stops at the first allocation success:
for every sequence of allocation outcomes containing at least one success it
terminates, and then either reports the out-of-memory failure `-1` with the
container unmodified or installs a strictly larger capacity with size and
element contents unchanged.  Under an allocator that never succeeds the loop
does not terminate (see the counterexample). -/
theorem ARRAY_GROW_terminates (s : ArrayState) (oracle : Nat → Bool)
    (h : ∃ k, oracle k = true) :
    ∃ fuel r, ARRAY_GROW s oracle fuel = some r ∧
      ((r.1 = -1 ∧ r.2 = s) ∨
       (r.1 = 0 ∧ s.capacity < r.2.capacity ∧ r.2.size = s.size ∧ r.2.elems = s.elems)) := by
  obtain ⟨k, hk⟩ := h
  obtain ⟨nc, hnc⟩ := growLoop_isSome s.capacity oracle (k + 1) 0 (2 * s.capacity)
    ⟨k, by omega, by simpa using hk⟩
  have hge : s.capacity ≤ nc :=
    growLoop_ge s.capacity oracle (k + 1) (2 * s.capacity) 0 nc (by omega) hnc
  by_cases hc : nc = s.capacity
  · exact ⟨k + 1, (-1, s), by simp [ARRAY_GROW, hnc, hc], Or.inl ⟨rfl, rfl⟩⟩
  · exact ⟨k + 1, (0, { s with capacity := nc }), by simp [ARRAY_GROW, hnc, hc],
      Or.inr ⟨rfl, lt_of_le_of_ne hge (Ne.symm hc), rfl, rfl⟩⟩

/-- C2 counterexample: with old capacity 1 and an allocator that always
fails, the grow operation never returns — no amount of fuel completes the
retry loop — refuting termination for every possible sequence of allocation
outcomes. -/
theorem ARRAY_GROW_no_termination_on_exhaustion :
    ¬ ∃ fuel r, ARRAY_GROW ⟨[], 0, 1⟩ (fun _ => false) fuel = some r := by
  rintro ⟨fuel, r, h⟩
  rw [show ARRAY_GROW ⟨[], 0, 1⟩ (fun _ => false) fuel = none by
    unfold ARRAY_GROW; rw [growLoop_allfail]] at h
  exact Option.noConfusion h

theorem ARRAY_GROW_terminates_witness :
    ∃ fuel r, ARRAY_GROW ⟨[some 0], 1, 2⟩ (fun _ => true) fuel = some r ∧
      ((r.1 = -1 ∧ r.2 = ⟨[some 0], 1, 2⟩) ∨
       (r.1 = 0 ∧ 2 < r.2.capacity ∧ r.2.size = 1 ∧ r.2.elems = [some 0])) :=
  ARRAY_GROW_terminates ⟨[some 0], 1, 2⟩ (fun _ => true) ⟨0, rfl⟩

lemma cleanNullGo_le :
    ∀ (fuel : Nat) (arr : List elem_t) (i k : Nat), (cleanNullGo arr i k fuel).2 ≤ k + fuel := by
  intro fuel
  induction fuel with
  | zero => intro arr i k; exact Nat.le_add_right k 0
  | succ f ih =>
    intro arr i k
    unfold cleanNullGo
    split
    · rename_i x e heq
      have := ih (arr.set k (some e)) (i + 1) (k + 1)
      omega
    · have := ih arr (i + 1) k
      omega

lemma ARRAY_GROW_cases (s : ArrayState) (oracle : Nat → Bool) (fuel : Nat) (r : Int)
    (s2 : ArrayState) (h : ARRAY_GROW s oracle fuel = some (r, s2)) :
    s2 = s ∨ (s2.size = s.size ∧ s2.elems = s.elems ∧ s.capacity ≤ s2.capacity) := by
  unfold ARRAY_GROW at h
  split at h
  · exact absurd h (by simp)
  · rename_i nc heq
    split at h
    · exact Or.inl (congrArg Prod.snd (Option.some.inj h)).symm
    · have hs2 : s2 = { s with capacity := nc } := (congrArg Prod.snd (Option.some.inj h)).symm
      subst hs2
      exact Or.inr ⟨rfl, rfl, growLoop_ge s.capacity oracle fuel (2 * s.capacity) 0 nc (by omega) heq⟩

/-- C3 (amended): whenever `size <= capacity` holds before, it holds after
grow (both on its success and on its out-of-memory failure), after resize-by
(when it installs a capacity), and after `clean_NULL` compaction of the live
region; explicit shrink preserves it provided the requested capacity is at
least the current size (the macro reallocates to exactly the requested slot
count without touching `size`, so shrinking below `size` violates the
invariant — see the counterexample). -/
theorem size_le_capacity_preserved (s : ArrayState) (n : Nat) (ok : Bool)
    (oracle : Nat → Bool) (fuel : Nat) (hinv : s.size ≤ s.capacity) :
    (∀ s2, ARRAY_RESIZE s n ok = some s2 → s2.size ≤ s2.capacity) ∧
    (∀ r s2, ARRAY_GROW s oracle fuel = some (r, s2) → s2.size ≤ s2.capacity) ∧
    (s.size ≤ n → (ARRAY_SHRINK s n ok).size ≤ (ARRAY_SHRINK s n ok).capacity) ∧
    (CLEAN_NULL_ELEMS s 0 s.size).size ≤ (CLEAN_NULL_ELEMS s 0 s.size).capacity := by
  refine ⟨?_, ?_, ?_, ?_⟩
  · intro s2 h
    unfold ARRAY_RESIZE at h
    split at h
    · cases Option.some.inj h
      exact Nat.le_add_right s.size n
    · exact absurd h (by simp)
  · intro r s2 h
    rcases ARRAY_GROW_cases s oracle fuel r s2 h with rfl | ⟨h1, _, h3⟩
    · exact hinv
    · rw [h1]; exact le_trans hinv h3
  · intro hn
    unfold ARRAY_SHRINK
    split
    · exact hn
    · exact hinv
  · have h := cleanNullGo_le s.size s.elems 0 0
    show (cleanNullGo s.elems 0 0 (s.size - 0)).2 ≤ s.capacity
    rw [Nat.sub_zero]
    exact le_trans (by simpa using h) hinv

/-- C3 counterexample: a state with `size = 1 <= capacity = 2` satisfies the
invariant, yet a successful shrink to the accepted argument 0 leaves
`size = 1 > capacity = 0`. -/
theorem ARRAY_SHRINK_breaks_invariant :
    (⟨[some 0], 1, 2⟩ : ArrayState).size ≤ (⟨[some 0], 1, 2⟩ : ArrayState).capacity ∧
    ¬ (ARRAY_SHRINK ⟨[some 0], 1, 2⟩ 0 true).size ≤
        (ARRAY_SHRINK ⟨[some 0], 1, 2⟩ 0 true).capacity := by
  decide

theorem size_le_capacity_preserved_witness :
    (ARRAY_SHRINK ⟨[some 0], 1, 4⟩ 2 true).size ≤
      (ARRAY_SHRINK ⟨[some 0], 1, 4⟩ 2 true).capacity ∧
    (CLEAN_NULL_ELEMS ⟨[some 0, none], 2, 4⟩ 0 2).size ≤
      (CLEAN_NULL_ELEMS ⟨[some 0, none], 2, 4⟩ 0 2).capacity :=
  ⟨(size_le_capacity_preserved ⟨[some 0], 1, 4⟩ 2 true (fun _ => true) 1
      (by decide)).2.2.1 (by decide),
   (size_le_capacity_preserved ⟨[some 0, none], 2, 4⟩ 0 true (fun _ => true) 1
      (by decide)).2.2.2⟩

/-- C7 (amended): the resize-by operation installs a capacity of exactly
`size + n` — `n` slots beyond the current element count, not beyond the old
capacity (see the counterexample) — and on allocation failure it returns
null without installing a new capacity. -/
theorem ARRAY_RESIZE_capacity (s : ArrayState) (n : Nat) :
    ARRAY_RESIZE s n true = some { s with capacity := s.size + n } ∧
    ARRAY_RESIZE s n false = none :=
  ⟨rfl, rfl⟩

/-- C7 counterexample: on a state with `size = 1`, `capacity = 4`, a
successful resize-by 2 installs capacity `3 = size + 2`, not
`6 = capacity + 2` as the claim states. -/
theorem ARRAY_RESIZE_not_capacity_plus_n :
    ARRAY_RESIZE ⟨[some 5], 1, 4⟩ 2 true = some ⟨[some 5], 1, 3⟩ ∧
    (⟨[some 5], 1, 3⟩ : ArrayState).capacity ≠
      (⟨[some 5], 1, 4⟩ : ArrayState).capacity + 2 := by
  decide

/-- C8: the shuffle loop draws swap indices `start + rand() % (start + end)`,
not `start + rand() % (end - start)`.  On the range `[1, 3)` of a 4-slot
buffer, the first draw 2 yields index `1 + 2 % 4 = 3`, outside the range,
and the resulting swap modifies slot 3, which lies outside `[start, end)` —
the code contradicts the macro's stated purpose of shuffling `[start, end)`
(for the `start = 0` ranges used by the stack the two expressions agree,
which is why the test suite passes). -/
theorem ARRAY_SHUFFLE_out_of_range :
    1 + 2 % (1 + 3) = 3 ∧ ¬ 1 + 2 % (1 + 3) < 3 ∧
    ARRAY_SHUFFLE [some 10, some 11, some 12, some 13] 1 3
      (fun t => if t = 0 then 2 else 0) = [some 10, some 13, some 12, some 11] ∧
    (ARRAY_SHUFFLE [some 10, some 11, some 12, some 13] 1 3
      (fun t => if t = 0 then 2 else 0))[3]? ≠
      ([some 10, some 11, some 12, some 13] : List elem_t)[3]? := by
  decide

lemma cleanNullGo_live (arr : List elem_t) (i k f : Nat) (e : Nat)
    (h : arr[i]? = some (some e)) :
    cleanNullGo arr i k (f + 1) = cleanNullGo (arr.set k (some e)) (i + 1) (k + 1) f := by
  conv_lhs => unfold cleanNullGo
  rw [h]

lemma cleanNullGo_tomb (arr : List elem_t) (i k f : Nat) (h : arr[i]? = some none) :
    cleanNullGo arr i k (f + 1) = cleanNullGo arr (i + 1) k f := by
  conv_lhs => unfold cleanNullGo
  rw [h]

lemma cleanNullGo_oob (arr : List elem_t) (i k f : Nat) (h : arr[i]? = none) :
    cleanNullGo arr i k (f + 1) = cleanNullGo arr (i + 1) k f := by
  conv_lhs => unfold cleanNullGo
  rw [h]

lemma take_set_succ : ∀ (l : List elem_t) (k : Nat) (v : elem_t), k < l.length →
    (l.set k v).take (k + 1) = l.take k ++ [v] := by
  intro l
  induction l with
  | nil => intro k v h; simp at h
  | cons x xs ih =>
    intro k v h
    cases k with
    | zero => simp
    | succ k =>
      have h2 : k < xs.length := by simpa using h
      simp [List.set_cons_succ, List.take_succ_cons, ih k v h2]

lemma cleanNullGo_spec :
    ∀ (fuel : Nat) (arr : List elem_t) (i k : Nat), k ≤ i →
      (cleanNullGo arr i k fuel).2 =
        k + (((arr.drop i).take fuel).filter Option.isSome).length ∧
      (cleanNullGo arr i k fuel).1.take (cleanNullGo arr i k fuel).2 =
        arr.take k ++ ((arr.drop i).take fuel).filter Option.isSome := by
  intro fuel
  induction fuel with
  | zero =>
    intro arr i k _
    exact ⟨by simp [cleanNullGo], by simp [cleanNullGo]⟩
  | succ f ih =>
    intro arr i k hki
    cases h2 : arr[i]? with
    | none =>
      have hlen : arr.length ≤ i := List.getElem?_eq_none_iff.mp h2
      have hd1 : arr.drop i = [] := List.drop_eq_nil_of_le hlen
      have hd2 : arr.drop (i + 1) = [] := List.drop_eq_nil_of_le (by omega)
      obtain ⟨ih1, ih2⟩ := ih arr (i + 1) k (by omega)
      rw [cleanNullGo_oob arr i k f h2, hd1]
      rw [hd2] at ih1 ih2
      simp only [List.take_nil, List.filter_nil, List.length_nil, Nat.add_zero,
        List.append_nil] at ih1 ih2 ⊢
      exact ⟨ih1, ih2⟩
    | some x =>
      have hil : i < arr.length := by
        by_contra hc
        rw [List.getElem?_eq_none (by omega)] at h2
        exact Option.noConfusion h2
      have hgi : arr[i] = x := by
        have hg := List.getElem?_eq_getElem hil
        rw [h2] at hg
        exact (Option.some.inj hg).symm
      have hdrop : arr.drop i = x :: arr.drop (i + 1) := by
        rw [List.drop_eq_getElem_cons hil, hgi]
      cases x with
      | none =>
        obtain ⟨ih1, ih2⟩ := ih arr (i + 1) k (by omega)
        rw [cleanNullGo_tomb arr i k f h2, hdrop, List.take_succ_cons,
          List.filter_cons_of_neg (by simp : ¬ ((none : elem_t).isSome = true))]
        exact ⟨ih1, ih2⟩
      | some e =>
        have hkl : k < arr.length := lt_of_le_of_lt hki hil
        have hdropset : (arr.set k (some e)).drop (i + 1) = arr.drop (i + 1) := by
          rw [List.drop_set, if_pos (by omega)]
        obtain ⟨ih1, ih2⟩ := ih (arr.set k (some e)) (i + 1) (k + 1) (by omega)
        rw [hdropset] at ih1 ih2
        rw [cleanNullGo_live arr i k f e h2, hdrop, List.take_succ_cons,
          List.filter_cons_of_pos (by simp : (some e : elem_t).isSome = true)]
        constructor
        · rw [ih1, List.length_cons]
          omega
        · rw [ih2, take_set_succ arr k (some e) hkl, List.append_assoc,
            List.singleton_append]

lemma cleanNullGo_full (l : List elem_t) :
    (cleanNullGo l 0 0 l.length).2 = (l.filter Option.isSome).length ∧
    (cleanNullGo l 0 0 l.length).1.take (cleanNullGo l 0 0 l.length).2 =
      l.filter Option.isSome := by
  obtain ⟨h1, h2⟩ := cleanNullGo_spec l.length l 0 0 (le_refl 0)
  simp only [List.drop_zero, List.take_length, List.take_zero, List.nil_append,
    Nat.zero_add] at h1 h2
  exact ⟨h1, h2⟩

lemma stack__clean_NULL_elems (s : Stack) :
    (stack__clean_NULL s).elems = s.elems.filter Option.isSome := by
  show (cleanNullGo s.elems 0 0 s.elems.length).1.take
      (cleanNullGo s.elems 0 0 s.elems.length).2 = s.elems.filter Option.isSome
  exact (cleanNullGo_full s.elems).2

lemma filter_eq_self_of_no_none (l : List elem_t) (h : ∀ e ∈ l, e ≠ none) :
    l.filter Option.isSome = l :=
  List.filter_eq_self.mpr (fun a ha => Option.isSome_iff_ne_none.mpr (h a ha))

lemma filter_set_none (l : List elem_t) (n : Nat) (h1 : ∀ e ∈ l, e ≠ none)
    (h2 : n < l.length) :
    (l.set n none).filter Option.isSome = l.take n ++ l.drop (n + 1) := by
  rw [List.set_eq_take_cons_drop none h2, List.filter_append]
  rw [filter_eq_self_of_no_none (l.take n) (fun e he => h1 e (List.take_subset n l he))]
  rw [List.filter_cons_of_neg (by simp)]
  rw [filter_eq_self_of_no_none (l.drop (n + 1))
    (fun e he => h1 e (List.drop_subset (n + 1) l he))]

/-- C4 (amended): for every stack with no pre-existing tombstones and every
in-range index `n`, `remove_nth` succeeds, `peek_nth` at `n` before the
compaction yields the null sentinel, and `clean_NULL` afterwards yields
exactly the other elements in their original relative order, reducing the
length by exactly 1; in general (for every stack, tombstoned or not)
`clean_NULL` removes exactly the null slots, keeps the survivors in their
original relative order and sets the size to their count.  (On a stack that
already contains tombstones the length drops by more than 1 — see the
counterexample — which is the only restriction added to the claim.) -/
theorem remove_nth_clean_NULL (s : Stack) (n : Nat)
    (hlive : ∀ e ∈ s.elems, e ≠ none) (hn : n < stack__length s) :
    (stack__remove_nth s n).1 = 0 ∧
    stack__peek_nth (stack__remove_nth s n).2 n = (0, some none) ∧
    (stack__clean_NULL (stack__remove_nth s n).2).elems =
      s.elems.take n ++ s.elems.drop (n + 1) ∧
    stack__length (stack__clean_NULL (stack__remove_nth s n).2) = stack__length s - 1 ∧
    (∀ t : Stack, (stack__clean_NULL t).elems = t.elems.filter Option.isSome) := by
  have hn2 : n < s.elems.length := hn
  have hrm : stack__remove_nth s n = (0, ⟨s.elems.set n none, s.copyEnabled⟩) := by
    unfold stack__remove_nth
    rw [if_pos hn2]
  refine ⟨by rw [hrm], ?_, ?_, ?_, fun t => stack__clean_NULL_elems t⟩
  · rw [hrm]
    show stack__peek_nth ⟨s.elems.set n none, s.copyEnabled⟩ n = (0, some none)
    unfold stack__peek_nth
    rw [show (⟨s.elems.set n none, s.copyEnabled⟩ : Stack).elems = s.elems.set n none from rfl,
      List.getElem?_set_self hn2]
  · rw [hrm]
    show (stack__clean_NULL ⟨s.elems.set n none, s.copyEnabled⟩).elems = _
    rw [stack__clean_NULL_elems]
    show (s.elems.set n none).filter Option.isSome = _
    exact filter_set_none s.elems n hlive hn2
  · rw [hrm]
    show stack__length (stack__clean_NULL ⟨s.elems.set n none, s.copyEnabled⟩) =
      s.elems.length - 1
    unfold stack__length
    rw [stack__clean_NULL_elems]
    show ((s.elems.set n none).filter Option.isSome).length = _
    rw [filter_set_none s.elems n hlive hn2, List.length_append, List.length_take,
      List.length_drop]
    omega

/-- C4 counterexample: on the stack `[NULL, 1, 2]` — reachable by pushing
three elements and tombstoning the bottom one — a further in-range
`remove_nth` at index 1 followed by `clean_NULL` leaves length 1, a
reduction of 2, not exactly 1 as the claim states for every stack. -/
theorem remove_nth_clean_NULL_with_tombstone :
    stack__length ⟨[none, some 1, some 2], true⟩ = 3 ∧
    (stack__remove_nth ⟨[none, some 1, some 2], true⟩ 1).1 = 0 ∧
    stack__length (stack__clean_NULL (stack__remove_nth ⟨[none, some 1, some 2], true⟩ 1).2) = 1 ∧
    ¬ stack__length (stack__clean_NULL (stack__remove_nth ⟨[none, some 1, some 2], true⟩ 1).2) =
        stack__length ⟨[none, some 1, some 2], true⟩ - 1 := by
  decide

theorem remove_nth_clean_NULL_witness :
    (stack__remove_nth ⟨[some 0, some 1, some 2], true⟩ 1).1 = 0 ∧
    stack__peek_nth (stack__remove_nth ⟨[some 0, some 1, some 2], true⟩ 1).2 1 = (0, some none) ∧
    (stack__clean_NULL (stack__remove_nth ⟨[some 0, some 1, some 2], true⟩ 1).2).elems =
      ([some 0, some 1, some 2] : List elem_t).take 1 ++
        ([some 0, some 1, some 2] : List elem_t).drop 2 ∧
    stack__length (stack__clean_NULL (stack__remove_nth ⟨[some 0, some 1, some 2], true⟩ 1).2) =
      stack__length ⟨[some 0, some 1, some 2], true⟩ - 1 ∧
    (∀ t : Stack, (stack__clean_NULL t).elems = t.elems.filter Option.isSome) :=
  remove_nth_clean_NULL ⟨[some 0, some 1, some 2], true⟩ 1 (by decide) (by decide)

/-- C5: pushing the boxed values `0, 1, ..., 7` in index order onto a fresh
empty copy-enabled stack yields length 8 with `peek_top` handing out a copy
equal to 7; popping 8 times succeeds each time, yields the values
`7, 6, ..., 0` in that order, and leaves the stack empty. -/
theorem push_pop_scenario :
    stack__length (pushRange stack__empty_copy_enabled 8) = 8 ∧
    stack__peek_top (pushRange stack__empty_copy_enabled 8) = (0, some (some 7)) ∧
    popTrace (pushRange stack__empty_copy_enabled 8) 8 =
      ([(0, some (some 7)), (0, some (some 6)), (0, some (some 5)), (0, some (some 4)),
        (0, some (some 3)), (0, some (some 2)), (0, some (some 1)), (0, some (some 0))],
       stack__empty_copy_enabled) ∧
    stack__is_empty (popTrace (pushRange stack__empty_copy_enabled 8) 8).2 = true := by
  decide

/-- C6: on every empty container, the removing and peeking operations —
stack `pop`, `peek_top`, `peek_nth`, `remove_nth`; queue `dequeue`, `pop`,
`front`, `back` — fail with the distinct error value `-1`, store nothing,
and leave the container (still empty) unchanged. -/
theorem empty_container_ops_fail (s : Stack) (q : Queue) (n : Nat)
    (hs : s.elems = []) (hq : q.elems = []) :
    stack__pop s = (-1, none, s) ∧
    stack__peek_top s = (-1, none) ∧
    stack__peek_nth s n = (-1, none) ∧
    stack__remove_nth s n = (-1, s) ∧
    queue__dequeue q = (-1, q) ∧
    queue__pop q = (-1, none, q) ∧
    queue__front q = (-1, none) ∧
    queue__back q = (-1, none) := by
  obtain ⟨es, cs⟩ := s
  obtain ⟨eq2, cq⟩ := q
  cases hs
  cases hq
  refine ⟨rfl, rfl, rfl, ?_, rfl, rfl, rfl, rfl⟩
  unfold stack__remove_nth
  rw [if_neg (by simp)]

theorem empty_container_ops_fail_witness :
    stack__pop ⟨[], true⟩ = (-1, none, ⟨[], true⟩) ∧
    stack__peek_top ⟨[], true⟩ = (-1, none) ∧
    stack__peek_nth ⟨[], true⟩ 0 = (-1, none) ∧
    stack__remove_nth ⟨[], true⟩ 0 = (-1, ⟨[], true⟩) ∧
    queue__dequeue ⟨[], false⟩ = (-1, ⟨[], false⟩) ∧
    queue__pop ⟨[], false⟩ = (-1, none, ⟨[], false⟩) ∧
    queue__front ⟨[], false⟩ = (-1, none) ∧
    queue__back ⟨[], false⟩ = (-1, none) :=
  empty_container_ops_fail ⟨[], true⟩ ⟨[], false⟩ 0 rfl rfl

/-- C10: on an empty stack, `pop`, `peek_top` and `peek_nth` return the
failure value `-1` without storing anything through the output pointer (the
out-write component of the model is `none`, i.e. a `NULL` output pointer is
never dereferenced), in both copy modes (the stack's `copyEnabled` flag is
arbitrary). -/
theorem empty_stack_null_out (s : Stack) (n : Nat) (hs : s.elems = []) :
    (stack__pop s).1 = -1 ∧ (stack__pop s).2.1 = none ∧
    (stack__peek_top s).1 = -1 ∧ (stack__peek_top s).2 = none ∧
    (stack__peek_nth s n).1 = -1 ∧ (stack__peek_nth s n).2 = none := by
  obtain ⟨es, cs⟩ := s
  cases hs
  exact ⟨rfl, rfl, rfl, rfl, rfl, rfl⟩

theorem empty_stack_null_out_witness :
    ((stack__pop ⟨[], true⟩).1 = -1 ∧ (stack__pop ⟨[], true⟩).2.1 = none ∧
     (stack__peek_top ⟨[], true⟩).1 = -1 ∧ (stack__peek_top ⟨[], true⟩).2 = none ∧
     (stack__peek_nth ⟨[], true⟩ 0).1 = -1 ∧ (stack__peek_nth ⟨[], true⟩ 0).2 = none) ∧
    ((stack__pop ⟨[], false⟩).1 = -1 ∧ (stack__pop ⟨[], false⟩).2.1 = none ∧
     (stack__peek_top ⟨[], false⟩).1 = -1 ∧ (stack__peek_top ⟨[], false⟩).2 = none ∧
     (stack__peek_nth ⟨[], false⟩ 0).1 = -1 ∧ (stack__peek_nth ⟨[], false⟩ 0).2 = none) :=
  ⟨empty_stack_null_out ⟨[], true⟩ 0 rfl, empty_stack_null_out ⟨[], false⟩ 0 rfl⟩

lemma searchFromTop_spec (p : elem_t → Bool) :
    ∀ (l : List elem_t), l.length < SIZE_MAX →
      (searchFromTop l p = SIZE_MAX ↔ ∀ x ∈ l, p x = false) ∧
      (searchFromTop l p ≠ SIZE_MAX →
        searchFromTop l p < l.length ∧
        (∃ x, l[searchFromTop l p]? = some x ∧ p x = true) ∧
        (∀ j x, searchFromTop l p < j → l[j]? = some x → p x = false)) := by
  intro l
  induction l with
  | nil =>
    intro _
    constructor
    · simp [searchFromTop]
    · intro h; exact absurd rfl h
  | cons x xs ih =>
    intro hlen
    have hlc : xs.length + 1 < SIZE_MAX := by simpa using hlen
    obtain ⟨ihA, ihB⟩ := ih (by omega)
    have hunf : searchFromTop (x :: xs) p =
        if searchFromTop xs p = SIZE_MAX then (if p x then 0 else SIZE_MAX)
        else searchFromTop xs p + 1 := rfl
    by_cases hr : searchFromTop xs p = SIZE_MAX
    · by_cases hp : p x = true
      · have hres : searchFromTop (x :: xs) p = 0 := by
          rw [hunf, if_pos hr, if_pos hp]
        constructor
        · rw [hres]
          constructor
          · intro h0; exact absurd h0 (by decide)
          · intro hall
            have := hall x (List.mem_cons_self x xs)
            rw [hp] at this
            exact Bool.noConfusion this
        · intro _
          rw [hres]
          refine ⟨by simp, ⟨x, by simp, hp⟩, ?_⟩
          intro j y hj hy
          cases j with
          | zero => omega
          | succ j0 =>
            rw [List.getElem?_cons_succ] at hy
            exact ihA.mp hr y (List.getElem?_mem hy)
      · have hpf : p x = false := by simpa using hp
        have hres : searchFromTop (x :: xs) p = SIZE_MAX := by
          rw [hunf, if_pos hr, if_neg hp]
        constructor
        · rw [hres]
          constructor
          · intro _ y hy
            rcases List.mem_cons.mp hy with rfl | hyx
            · exact hpf
            · exact ihA.mp hr y hyx
          · intro _; rfl
        · intro hne; rw [hres] at hne; exact absurd rfl hne
    · have hres : searchFromTop (x :: xs) p = searchFromTop xs p + 1 := by
        rw [hunf, if_neg hr]
      obtain ⟨hlt, ⟨w, hw, hpw⟩, habove⟩ := ihB hr
      constructor
      · rw [hres]
        constructor
        · intro h
          exact absurd h (by omega)
        · intro hall
          have hwm : w ∈ xs := List.getElem?_mem hw
          have hfw := hall w (List.mem_cons_of_mem x hwm)
          rw [hpw] at hfw
          exact Bool.noConfusion hfw
      · intro _
        rw [hres]
        refine ⟨by simpa using Nat.succ_lt_succ hlt, ⟨w, ?_, hpw⟩, ?_⟩
        · rw [List.getElem?_cons_succ]; exact hw
        · intro j y hj hy
          cases j with
          | zero => omega
          | succ j0 =>
            rw [List.getElem?_cons_succ] at hy
            exact habove j0 y (by omega) hy

/-- C9: for every stack (of size below `SIZE_MAX`, as on a real machine),
`search` and `ptr_search` return `SIZE_MAX` when the target is `NULL`;
otherwise they return `SIZE_MAX` exactly when no element satisfies the match
function (respectively no handle equals the target), and any other returned
value is the index of the first match in top-to-bottom scan order (it is in
range, its slot matches, and no higher slot matches); `contains` and
`ptr_contains` hold exactly when the corresponding search finds a match. -/
theorem stack_search_spec (s : Stack) (e : elem_t) (f : Nat → Nat → Bool)
    (hlen : stack__length s < SIZE_MAX) :
    (stack__search s none f = SIZE_MAX ∧ stack__ptr_search s none = SIZE_MAX) ∧
    (∀ v, e = some v →
      ((stack__search s e f = SIZE_MAX ↔ ∀ x ∈ s.elems, matchPred f v x = false) ∧
       (stack__search s e f ≠ SIZE_MAX →
         stack__search s e f < stack__length s ∧
         (∃ x, s.elems[stack__search s e f]? = some x ∧ matchPred f v x = true) ∧
         (∀ j x, stack__search s e f < j → s.elems[j]? = some x →
           matchPred f v x = false))) ∧
      ((stack__ptr_search s e = SIZE_MAX ↔ ∀ x ∈ s.elems, x ≠ some v) ∧
       (stack__ptr_search s e ≠ SIZE_MAX →
         stack__ptr_search s e < stack__length s ∧
         s.elems[stack__ptr_search s e]? = some (some v) ∧
         (∀ j, stack__ptr_search s e < j → s.elems[j]? ≠ some (some v))))) ∧
    (stack__contains s e f = true ↔ stack__search s e f ≠ SIZE_MAX) ∧
    (stack__ptr_contains s e = true ↔ stack__ptr_search s e ≠ SIZE_MAX) := by
  refine ⟨⟨rfl, rfl⟩, ?_, decide_eq_true_iff, decide_eq_true_iff⟩
  intro v hv
  subst hv
  have hs1 : stack__search s (some v) f = searchFromTop s.elems (matchPred f v) := rfl
  have hs2 : stack__ptr_search s (some v) = searchFromTop s.elems (handleEq (some v)) := rfl
  obtain ⟨hA1, hB1⟩ := searchFromTop_spec (matchPred f v) s.elems hlen
  obtain ⟨hA2, hB2⟩ := searchFromTop_spec (handleEq (some v)) s.elems hlen
  refine ⟨⟨?_, ?_⟩, ⟨?_, ?_⟩⟩
  · rw [hs1]; exact hA1
  · rw [hs1]; exact hB1
  · rw [hs2, hA2]
    unfold handleEq
    simp only [decide_eq_false_iff_not]
  · rw [hs2]
    intro h
    obtain ⟨hlt2, ⟨w, hw, hpw⟩, hab⟩ := hB2 h
    have hwv : w = some v := of_decide_eq_true hpw
    subst hwv
    refine ⟨hlt2, hw, ?_⟩
    intro j hj hje
    have hfj := hab j (some v) hj hje
    unfold handleEq at hfj
    simp at hfj

theorem stack_search_spec_witness :
    stack__search ⟨[some 1, some 2, some 1], false⟩ (some 1) (fun a b => decide (a = b)) <
      stack__length ⟨[some 1, some 2, some 1], false⟩ :=
  ((((stack_search_spec ⟨[some 1, some 2, some 1], false⟩ (some 1)
      (fun a b => decide (a = b)) (by decide)).2.1 1 rfl).1).2 (by decide)).1
